import Mathlib

/-!
Shallow embedding of `src/scripts/generate-icns-linux.py`, function
`create_icns_from_pngs`, together with an independent ICNS parser used
to state a round-trip property.

Bytes are modelled as `Nat` (values `< 256`), byte buffers as `List Nat`.
The filesystem consulted by the script is modelled as a pure lookup
`fs : String → Option (List Nat)` from a file name (relative to the
hard-coded iconset directory) to the file's bytes: `os.path.exists`
followed by reading the file corresponds to `fs name = some data`.
`struct.pack('>I', n)` is modelled by `pack_u32be`.
-/

namespace DeepTalk

/-- ASCII bytes of a string, modelling a Python byte-string literal. -/
def ascii (s : String) : List Nat := s.data.map Char.toNat

/-- `struct.pack('>I', n)`: 4 big-endian bytes of `n` (for `n < 2^32`). -/
def pack_u32be (n : Nat) : List Nat :=
  [n / 16777216 % 256, n / 65536 % 256, n / 256 % 256, n % 256]

/-- Big-endian decoding of a 4-byte buffer, inverse of `pack_u32be`. -/
def unpack_u32be : List Nat → Nat
  | [a, b, c, d] => ((a * 256 + b) * 256 + c) * 256 + d
  | _ => 0

/-- The fixed `icon_types` table of the script: type tag bytes and size. -/
def icon_types : List (List Nat × Nat) :=
  [(ascii "icp4", 16), (ascii "icp5", 32), (ascii "icp6", 64),
   (ascii "ic07", 128), (ascii "ic08", 256), (ascii "ic09", 512),
   (ascii "ic10", 1024)]

/-- The `png_files` candidate list built for a size inside the loop. -/
def png_files (size : Nat) : List String :=
  ["icon_" ++ toString size ++ "x" ++ toString size ++ ".png",
   "icon_" ++ toString size ++ "x" ++ toString size ++ "@2x.png"]

/-- The inner `for png_file in png_files` loop: bytes of the first
candidate file that exists, if any. -/
def first_existing (fs : String → Option (List Nat)) :
    List String → Option (List Nat)
  | [] => none
  | f :: rest =>
    match fs f with
    | some d => some d
    | none => first_existing fs rest

/-- Resolution of the PNG data for one nominal size. -/
def resolve_png (fs : String → Option (List Nat)) (size : Nat) :
    Option (List Nat) :=
  first_existing fs (png_files size)

/-- The `icon_data` list accumulated by the script: for each spec of
`icon_types` in order, the triple `(icon_type, entry_size, png_data)`
with `entry_size = 8 + len(png_data)`, gated by `if png_data:` — Python
truthiness, so both `None` (no candidate file exists) and the empty byte
string `b''` (an existing empty file) are skipped. -/
def icon_data (fs : String → Option (List Nat)) :
    List (List Nat × Nat × List Nat) :=
  icon_types.filterMap (fun p =>
    match resolve_png fs p.2 with
    | some d => if d = [] then none else some (p.1, 8 + d.length, d)
    | none => none)

/-- `total_size`: 8 header bytes plus every accumulated `entry_size`. -/
def total_size (fs : String → Option (List Nat)) : Nat :=
  8 + ((icon_data fs).map (fun e => e.2.1)).sum

/-- Bytes written for one `icon_data` entry: type tag, packed
`entry_size`, then the payload. -/
def entry_bytes (e : List Nat × Nat × List Nat) : List Nat :=
  e.1 ++ pack_u32be e.2.1 ++ e.2.2

/-- The full byte stream written by `create_icns_from_pngs`: the
`b'icns'` header, the packed `total_size`, then every entry in order. -/
def create_icns_from_pngs (fs : String → Option (List Nat)) : List Nat :=
  ascii "icns" ++ pack_u32be (total_size fs) ++
    ((icon_data fs).map entry_bytes).flatten

/-- The variants that pass the `if png_data:` gate, as `(tag, payload)`
pairs in table order: the view of `icon_data` a round-trip is stated
against.  Mirrors the same truthiness check: an existing empty file
does not count. -/
def resolved_variants (fs : String → Option (List Nat)) :
    List (List Nat × List Nat) :=
  icon_types.filterMap (fun p =>
    match resolve_png fs p.2 with
    | some d => if d = [] then none else some (p.1, d)
    | none => none)

/-- Serialized form of one resolved variant. -/
def variant_bytes (v : List Nat × List Nat) : List Nat :=
  v.1 ++ pack_u32be (8 + v.2.length) ++ v.2

/-- Independent ICNS entry parser: repeatedly read a 4-byte tag, a
4-byte big-endian entry length, and `length - 8` payload bytes.  `fuel`
bounds the number of entries read. -/
def parse_entries : Nat → List Nat → Option (List (List Nat × List Nat))
  | 0, bytes => if bytes = [] then some [] else none
  | fuel + 1, bytes =>
    if bytes = [] then some []
    else if bytes.length < 8 then none
    else
      let tag := bytes.take 4
      let len := unpack_u32be ((bytes.drop 4).take 4)
      if len < 8 ∨ bytes.length < len then none
      else
        match parse_entries fuel (bytes.drop len) with
        | some rest => some ((tag, (bytes.drop 8).take (len - 8)) :: rest)
        | none => none

/-- Independent ICNS parser: check the magic, read the total length,
check it against the buffer length, then parse the entries. -/
def parse_icns (bytes : List Nat) : Option (List (List Nat × List Nat)) :=
  if bytes.take 4 = ascii "icns" ∧
      bytes.length = unpack_u32be ((bytes.drop 4).take 4) then
    parse_entries bytes.length (bytes.drop 8)
  else none

/-! ### Basic facts about the embedded definitions -/

theorem length_pack_u32be (n : Nat) : (pack_u32be n).length = 4 := rfl

theorem length_ascii_icns : (ascii "icns").length = 4 := rfl

theorem unpack_pack_u32be (n : Nat) (h : n < 4294967296) :
    unpack_u32be (pack_u32be n) = n := by
  simp only [pack_u32be, unpack_u32be]
  omega

theorem icon_types_tags_length : ∀ p ∈ icon_types, p.1.length = 4 := by decide

theorem icon_types_tags_nodup : (icon_types.map (fun p => p.1)).Nodup := by decide

theorem icon_types_tag_inj :
    ∀ p ∈ icon_types, ∀ q ∈ icon_types, p.1 = q.1 → p = q := by decide

theorem icon_data_eq_map (fs : String → Option (List Nat)) :
    icon_data fs =
      (resolved_variants fs).map (fun v => (v.1, 8 + v.2.length, v.2)) := by
  unfold icon_data resolved_variants
  generalize icon_types = l
  induction l with
  | nil => rfl
  | cons p l ih =>
    rw [List.filterMap_cons, List.filterMap_cons]
    cases h : resolve_png fs p.2 with
    | none => simp [ih]
    | some d => by_cases hd : d = [] <;> simp [hd, ih]

theorem mem_icon_data_of_resolve {fs : String → Option (List Nat)}
    {q : List Nat × Nat} (hq : q ∈ icon_types) {d : List Nat}
    (hd : resolve_png fs q.2 = some d) (hne : d ≠ []) :
    (q.1, 8 + d.length, d) ∈ icon_data fs := by
  unfold icon_data
  exact List.mem_filterMap.2 ⟨q, hq, by rw [hd]; simp [hne]⟩

theorem spec_of_mem_icon_data {fs : String → Option (List Nat)}
    {e : List Nat × Nat × List Nat} (he : e ∈ icon_data fs) :
    ∃ p ∈ icon_types, e = (p.1, 8 + e.2.2.length, e.2.2) ∧
      resolve_png fs p.2 = some e.2.2 := by
  unfold icon_data at he
  obtain ⟨p, hp, hfe⟩ := List.mem_filterMap.1 he
  cases h : resolve_png fs p.2 with
  | none => rw [h] at hfe; cases hfe
  | some d =>
    simp only [h] at hfe
    split at hfe
    · cases hfe
    · obtain rfl : (p.1, 8 + d.length, d) = e := Option.some.inj hfe
      exact ⟨p, hp, rfl, h⟩

theorem spec_of_mem_resolved {fs : String → Option (List Nat)}
    {v : List Nat × List Nat} (hv : v ∈ resolved_variants fs) :
    ∃ p ∈ icon_types, v.1 = p.1 ∧ resolve_png fs p.2 = some v.2 := by
  unfold resolved_variants at hv
  obtain ⟨p, hp, hfv⟩ := List.mem_filterMap.1 hv
  cases h : resolve_png fs p.2 with
  | none => rw [h] at hfv; cases hfv
  | some d =>
    simp only [h] at hfv
    split at hfv
    · cases hfv
    · obtain rfl : (p.1, d) = v := Option.some.inj hfv
      exact ⟨p, hp, rfl, h⟩

theorem tag_length_of_mem_resolved {fs : String → Option (List Nat)}
    {v : List Nat × List Nat} (hv : v ∈ resolved_variants fs) :
    v.1.length = 4 := by
  obtain ⟨p, hp, h1, _⟩ := spec_of_mem_resolved hv
  rw [h1]
  exact icon_types_tags_length p hp

/-! ### Length and layout of the produced byte stream -/

theorem length_variant_bytes {v : List Nat × List Nat} (h4 : v.1.length = 4) :
    (variant_bytes v).length = 8 + v.2.length := by
  simp [variant_bytes, h4, length_pack_u32be]
  omega

theorem entry_bytes_comp :
    ∀ v : List Nat × List Nat,
      entry_bytes (v.1, 8 + v.2.length, v.2) = variant_bytes v :=
  fun _ => rfl

theorem create_body_eq (fs : String → Option (List Nat)) :
    ((icon_data fs).map entry_bytes).flatten =
      ((resolved_variants fs).map variant_bytes).flatten := by
  rw [icon_data_eq_map, List.map_map]
  rfl

theorem total_size_eq (fs : String → Option (List Nat)) :
    total_size fs =
      8 + ((resolved_variants fs).map (fun v => 8 + v.2.length)).sum := by
  unfold total_size
  rw [icon_data_eq_map, List.map_map]
  rfl

theorem length_create (fs : String → Option (List Nat)) :
    (create_icns_from_pngs fs).length = total_size fs := by
  unfold create_icns_from_pngs
  rw [List.length_append, List.length_append, create_body_eq,
    List.length_flatten, List.map_map, total_size_eq, length_ascii_icns,
    length_pack_u32be]
  have hm : (resolved_variants fs).map (List.length ∘ variant_bytes) =
      (resolved_variants fs).map (fun v => 8 + v.2.length) :=
    List.map_congr_left
      (fun v hv => length_variant_bytes (tag_length_of_mem_resolved hv))
  rw [hm]

theorem create_take_four (fs : String → Option (List Nat)) :
    (create_icns_from_pngs fs).take 4 = ascii "icns" := by
  unfold create_icns_from_pngs
  rw [List.append_assoc, List.take_left' length_ascii_icns]

theorem create_drop_four (fs : String → Option (List Nat)) :
    (create_icns_from_pngs fs).drop 4 =
      pack_u32be (total_size fs) ++ ((icon_data fs).map entry_bytes).flatten := by
  unfold create_icns_from_pngs
  rw [List.append_assoc, List.drop_left' length_ascii_icns]

theorem create_header_field (fs : String → Option (List Nat)) :
    ((create_icns_from_pngs fs).drop 4).take 4 = pack_u32be (total_size fs) := by
  rw [create_drop_four, List.take_left' (length_pack_u32be _)]

theorem create_drop_eight (fs : String → Option (List Nat)) :
    (create_icns_from_pngs fs).drop 8 =
      ((icon_data fs).map entry_bytes).flatten := by
  unfold create_icns_from_pngs
  have h8 : (ascii "icns" ++ pack_u32be (total_size fs)).length = 8 := by
    rw [List.length_append, length_ascii_icns, length_pack_u32be]
  rw [List.drop_left' h8]

/-! ### Parsing the produced stream -/

theorem parse_entries_nil (fuel : Nat) : parse_entries fuel [] = some [] := by
  cases fuel <;> simp [parse_entries]

theorem parse_entries_cons (fuel : Nat) (v : List Nat × List Nat)
    (rest : List Nat) (h4 : v.1.length = 4)
    (hlt : 8 + v.2.length < 4294967296) :
    parse_entries (fuel + 1) (variant_bytes v ++ rest) =
      match parse_entries fuel rest with
      | some entries => some (v :: entries)
      | none => none := by
  have hvb : (variant_bytes v).length = 8 + v.2.length := length_variant_bytes h4
  have hlen : (variant_bytes v ++ rest).length = 8 + v.2.length + rest.length := by
    rw [List.length_append, hvb]
  have hne : variant_bytes v ++ rest ≠ [] := by
    intro h
    have := hlen
    rw [h] at this
    simp only [List.length_nil] at this
    omega
  have hA : (variant_bytes v ++ rest).take 4 = v.1 := by
    unfold variant_bytes
    rw [List.append_assoc, List.append_assoc]
    exact List.take_left' h4
  have hd4 : (variant_bytes v ++ rest).drop 4 =
      pack_u32be (8 + v.2.length) ++ (v.2 ++ rest) := by
    unfold variant_bytes
    rw [List.append_assoc, List.append_assoc]
    exact List.drop_left' h4
  have hB : ((variant_bytes v ++ rest).drop 4).take 4 =
      pack_u32be (8 + v.2.length) := by
    rw [hd4]
    exact List.take_left' (length_pack_u32be _)
  have hd8 : (variant_bytes v ++ rest).drop 8 = v.2 ++ rest := by
    unfold variant_bytes
    rw [List.append_assoc]
    exact List.drop_left' (by rw [List.length_append, h4, length_pack_u32be])
  have hD : ((variant_bytes v ++ rest).drop 8).take (8 + v.2.length - 8) = v.2 := by
    rw [hd8]
    have h : 8 + v.2.length - 8 = v.2.length := by omega
    rw [h]
    exact List.take_left' rfl
  have hE : (variant_bytes v ++ rest).drop (8 + v.2.length) = rest := by
    rw [← hvb]
    exact List.drop_left' rfl
  simp only [parse_entries]
  rw [if_neg hne, if_neg (by rw [hlen]; omega), hB,
    unpack_pack_u32be _ hlt, hA, hD, hE,
    if_neg (by rw [hlen]; omega)]

theorem parse_entries_flatten (l : List (List Nat × List Nat)) :
    ∀ fuel : Nat,
      (∀ v ∈ l, v.1.length = 4 ∧ 8 + v.2.length < 4294967296) →
      l.length ≤ fuel →
      parse_entries fuel ((l.map variant_bytes).flatten) = some l := by
  induction l with
  | nil =>
    intro fuel _ _
    simpa using parse_entries_nil fuel
  | cons v l ih =>
    intro fuel hv hf
    rw [List.length_cons] at hf
    obtain ⟨fuel, rfl⟩ : ∃ f, fuel = f + 1 := ⟨fuel - 1, by omega⟩
    obtain ⟨h4, hlt⟩ := hv v (List.mem_cons_self v l)
    rw [List.map_cons, List.flatten_cons,
      parse_entries_cons fuel v _ h4 hlt,
      ih fuel (fun w hw => hv w (List.mem_cons_of_mem v hw)) (by omega)]

theorem resolved_sizes_bounded {fs : String → Option (List Nat)}
    (h2 : total_size fs < 4294967296) :
    ∀ v ∈ resolved_variants fs,
      v.1.length = 4 ∧ 8 + v.2.length < 4294967296 := by
  intro v hv
  refine ⟨tag_length_of_mem_resolved hv, ?_⟩
  have hmem : 8 + v.2.length ∈
      (resolved_variants fs).map (fun w => 8 + w.2.length) :=
    List.mem_map_of_mem _ hv
  have hle : 8 + v.2.length ≤
      ((resolved_variants fs).map (fun w => 8 + w.2.length)).sum :=
    List.single_le_sum (fun x _ => Nat.zero_le x) _ hmem
  have ht := total_size_eq fs
  omega

theorem length_le_size_sum (l : List (List Nat × List Nat)) :
    l.length ≤ (l.map (fun v => 8 + v.2.length)).sum := by
  induction l with
  | nil => simp
  | cons v l ih =>
    simp only [List.length_cons, List.map_cons, List.sum_cons]
    omega

/-! ### Claims -/

/-- Claim C1, counterexample: with a filesystem on which no PNG exists,
zero variant specs resolve, yet the writer still produces output bytes
(the 8-byte header) and signals no error — refuting the claim that it
signals `EmptyInput` and produces no output. -/
theorem claim_C1_counterexample :
    icon_data (fun _ => none) = [] ∧
    create_icns_from_pngs (fun _ => none) ≠ [] := by decide

/-- Claim C1, amended: if zero variant specs resolve to PNG bytes, the
writer does not signal any error; it produces exactly the 8-byte output
consisting of the magic `b"icns"` followed by the packed total length 8
(a header-only file with no entries). -/
theorem claim_C1 (fs : String → Option (List Nat))
    (h : icon_data fs = []) :
    create_icns_from_pngs fs = ascii "icns" ++ pack_u32be 8 := by
  unfold create_icns_from_pngs total_size
  rw [h]
  rfl

/-- Witness for the amended claim C1 at the empty filesystem. -/
theorem claim_C1_witness :
    icon_data (fun _ => none) = [] ∧
    create_icns_from_pngs (fun _ => none) = ascii "icns" ++ pack_u32be 8 :=
  ⟨by decide, claim_C1 (fun _ => none) (by decide)⟩

/-- Claim C2: when at least one variant resolves (and the total fits a
u32, as `struct.pack('>I', ·)` requires), the output's byte length equals
the `totalLength` value stored in the header (bytes 4–7, big-endian),
and that value equals `8 + Σ (8 + len payload)` over resolved variants. -/
theorem claim_C2 (fs : String → Option (List Nat))
    (_h1 : resolved_variants fs ≠ [])
    (h2 : total_size fs < 4294967296) :
    (create_icns_from_pngs fs).length =
      unpack_u32be (((create_icns_from_pngs fs).drop 4).take 4) ∧
    unpack_u32be (((create_icns_from_pngs fs).drop 4).take 4) =
      8 + ((resolved_variants fs).map (fun v => 8 + v.2.length)).sum := by
  rw [create_header_field, unpack_pack_u32be _ h2, length_create,
    total_size_eq]
  exact ⟨rfl, rfl⟩

/-- Witness for claim C2 on a one-variant filesystem. -/
theorem claim_C2_witness :
    (create_icns_from_pngs (fun s =>
        if s = "icon_16x16.png" then some [1, 2, 3] else none)).length =
      unpack_u32be (((create_icns_from_pngs (fun s =>
        if s = "icon_16x16.png" then some [1, 2, 3] else none)).drop
          4).take 4) ∧
    unpack_u32be (((create_icns_from_pngs (fun s =>
        if s = "icon_16x16.png" then some [1, 2, 3] else none)).drop
          4).take 4) =
      8 + ((resolved_variants (fun s =>
        if s = "icon_16x16.png" then some [1, 2, 3] else none)).map
          (fun v => 8 + v.2.length)).sum :=
  claim_C2 _ (by decide) (by decide)

/-- Claim C3: after the 8-byte header the output is, for each resolved
variant in the original table order, its 4-byte tag, then
`pack_u32be (8 + len payload)`, then the payload bytes verbatim. -/
theorem claim_C3 (fs : String → Option (List Nat)) :
    (create_icns_from_pngs fs).drop 8 =
      ((resolved_variants fs).map
        (fun v => v.1 ++ pack_u32be (8 + v.2.length) ++ v.2)).flatten := by
  rw [create_drop_eight, create_body_eq]
  rfl

/-- Claim C4: the first 4 output bytes are the ASCII bytes of `"icns"`
and bytes 4–7 are the packed big-endian `total_size`. -/
theorem claim_C4 (fs : String → Option (List Nat)) :
    (create_icns_from_pngs fs).take 4 = ascii "icns" ∧
    ((create_icns_from_pngs fs).drop 4).take 4 =
      pack_u32be (total_size fs) :=
  ⟨create_take_four fs, create_header_field fs⟩

/-- Claim C5, counterexample: on a filesystem where `icon_512x512.png`
exists but is empty, the spec for size 256 does not resolve (the
claim's premise) and the spec for size 512 resolves — to the empty byte
string — yet the writer emits no entry for it: Python's `if png_data:`
truthiness check skips empty bytes, refuting "all other resolved
variants are still emitted". -/
theorem claim_C5_counterexample :
    resolve_png
        (fun s => if s = "icon_512x512.png" then some [] else none) 256 =
      none ∧
    resolve_png
        (fun s => if s = "icon_512x512.png" then some [] else none) 512 =
      some [] ∧
    (ascii "ic09", 8, ([] : List Nat)) ∉
      icon_data (fun s => if s = "icon_512x512.png" then some [] else none) := by
  decide

/-- Claim C5, amended: a spec whose PNG does not resolve is skipped
without failure — its tag appears in no emitted entry — while any other
spec that resolves to a nonempty byte string still contributes its
entry (a spec resolving to empty bytes is also skipped, by the
`if png_data:` truthiness check). -/
theorem claim_C5 (fs : String → Option (List Nat)) (p q : List Nat × Nat)
    (hp : p ∈ icon_types) (hnone : resolve_png fs p.2 = none)
    (hq : q ∈ icon_types) (d : List Nat)
    (hd : resolve_png fs q.2 = some d) (hne : d ≠ []) :
    p.1 ∉ (icon_data fs).map (fun e => e.1) ∧
    (q.1, 8 + d.length, d) ∈ icon_data fs := by
  refine ⟨?_, mem_icon_data_of_resolve hq hd hne⟩
  intro hmem
  obtain ⟨e, he, htag⟩ := List.mem_map.1 hmem
  obtain ⟨r, hr, herq, hres⟩ := spec_of_mem_icon_data he
  have hr1 : r.1 = p.1 := by
    rw [herq] at htag
    exact htag
  have hrp : r = p := icon_types_tag_inj r hr p hp hr1
  rw [hrp, hnone] at hres
  cases hres

/-- Witness for claim C5: size 256 missing, size 512 present. -/
theorem claim_C5_witness :
    ascii "ic08" ∉
      ((icon_data (fun s =>
        if s = "icon_512x512.png" then some [7] else none)).map
          (fun e => e.1)) ∧
    (ascii "ic09", 9, [7]) ∈
      icon_data (fun s =>
        if s = "icon_512x512.png" then some [7] else none) :=
  claim_C5 _ (ascii "ic08", 256) (ascii "ic09", 512) (by decide)
    (by decide) (by decide) [7] (by decide) (by decide)

/-- Claim C6: the consumed table is exactly icp4→16, icp5→32, icp6→64,
ic07→128, ic08→256, ic09→512, ic10→1024 with those exact ASCII tags in
that order, and no tag appears twice among the emitted entries. -/
theorem claim_C6 :
    icon_types =
      [([105, 99, 112, 52], 16), ([105, 99, 112, 53], 32),
       ([105, 99, 112, 54], 64), ([105, 99, 48, 55], 128),
       ([105, 99, 48, 56], 256), ([105, 99, 48, 57], 512),
       ([105, 99, 49, 48], 1024)] ∧
    ∀ fs : String → Option (List Nat),
      ((icon_data fs).map (fun e => e.1)).Nodup := by
  refine ⟨by decide, fun fs => ?_⟩
  have hsub : List.Sublist ((icon_data fs).map (fun e => e.1))
      (icon_types.map (fun p => p.1)) := by
    unfold icon_data
    generalize icon_types = l
    induction l with
    | nil => simp
    | cons p l ih =>
      rw [List.filterMap_cons, List.map_cons]
      cases h : resolve_png fs p.2 with
      | none =>
        simp only [h]
        exact ih.cons p.1
      | some d =>
        by_cases hd : d = []
        · simp only [h, hd, if_pos]
          exact ih.cons p.1
        · simp only [h, if_neg hd]
          rw [List.map_cons]
          exact ih.cons₂ p.1
  exact icon_types_tags_nodup.sublist hsub

/-- Claim C7: parsing the produced output with the independent ICNS
parser recovers exactly the resolved `(tag, payload)` pairs in order. -/
theorem claim_C7 (fs : String → Option (List Nat))
    (_h1 : resolved_variants fs ≠ [])
    (h2 : total_size fs < 4294967296) :
    parse_icns (create_icns_from_pngs fs) = some (resolved_variants fs) := by
  unfold parse_icns
  rw [create_take_four, length_create, create_header_field,
    unpack_pack_u32be _ h2, if_pos ⟨rfl, rfl⟩, create_drop_eight,
    create_body_eq]
  refine parse_entries_flatten _ _ (resolved_sizes_bounded h2) ?_
  have hle := length_le_size_sum (resolved_variants fs)
  have ht := total_size_eq fs
  omega

/-- Witness for claim C7 on a one-variant filesystem. -/
theorem claim_C7_witness :
    parse_icns (create_icns_from_pngs (fun s =>
        if s = "icon_128x128.png" then some [9, 9] else none)) =
      some (resolved_variants (fun s =>
        if s = "icon_128x128.png" then some [9, 9] else none)) :=
  claim_C7 _ (by decide) (by decide)

/-- Claim C8: the writer is deterministic — two invocations on inputs
with identical resolver results produce byte-identical output. -/
theorem claim_C8 (fs1 fs2 : String → Option (List Nat))
    (h : ∀ s, fs1 s = fs2 s) :
    create_icns_from_pngs fs1 = create_icns_from_pngs fs2 := by
  have hf : fs1 = fs2 := funext h
  rw [hf]

/-- Witness for claim C8 on two extensionally equal filesystems. -/
theorem claim_C8_witness :
    create_icns_from_pngs
        (fun s => if s = "unused.png" then none else none) =
      create_icns_from_pngs (fun _ => none) :=
  claim_C8 _ _ (fun _ => ite_self none)

/-- Claim C9: the concrete two-variant scenario — ic08 resolving to
`b"PNG256DATA"` and ic09 to `b"PNG512DATA"` — yields exactly the
expected 44-byte stream. -/
theorem claim_C9 :
    create_icns_from_pngs
        (fun s => if s = "icon_256x256.png" then some (ascii "PNG256DATA")
          else if s = "icon_512x512.png" then some (ascii "PNG512DATA")
          else none) =
      ascii "icns" ++ pack_u32be 44 ++
        (ascii "ic08" ++ pack_u32be 18 ++ ascii "PNG256DATA") ++
        (ascii "ic09" ++ pack_u32be 18 ++ ascii "PNG512DATA") ∧
    (create_icns_from_pngs
        (fun s => if s = "icon_256x256.png" then some (ascii "PNG256DATA")
          else if s = "icon_512x512.png" then some (ascii "PNG512DATA")
          else none)).length = 44 :=
  ⟨by decide, by decide⟩

/-- Claim C10, counterexample: on a filesystem where only
`icon_256x256@2x.png` exists and is empty, `icon_256x256.png` is absent
and the `@2x` candidate exists (the claim's premise), the resolver does
return its bytes — the empty string — yet no entry is emitted under the
size-256 tag: `if png_data:` skips empty bytes, refuting the claimed
"the payload emitted under the tag for size N is the @2x file's bytes". -/
theorem claim_C10_counterexample :
    (fun s => if s = "icon_256x256@2x.png" then some ([] : List Nat)
        else none) "icon_256x256.png" = none ∧
    (fun s => if s = "icon_256x256@2x.png" then some ([] : List Nat)
        else none) "icon_256x256@2x.png" = some [] ∧
    resolve_png (fun s =>
        if s = "icon_256x256@2x.png" then some [] else none) 256 =
      some [] ∧
    icon_data (fun s =>
        if s = "icon_256x256@2x.png" then some [] else none) = [] := by
  decide

/-- Claim C10, amended: for a size `N` the resolver tries `icon_NxN.png`
and then `icon_NxN@2x.png` in that order and uses the bytes of the first
file that exists; when the first is absent and the second present with
nonempty bytes, the `@2x` file's bytes are used unvalidated as the
payload of the entry emitted under the tag for size `N` (if the `@2x`
file is empty, the `if png_data:` check emits no entry). -/
theorem claim_C10 (fs : String → Option (List Nat)) (size : Nat)
    (b tag : List Nat)
    (h1 : fs ("icon_" ++ toString size ++ "x" ++ toString size ++ ".png") =
      none)
    (h2 : fs ("icon_" ++ toString size ++ "x" ++ toString size ++
      "@2x.png") = some b)
    (hb : b ≠ [])
    (h3 : (tag, size) ∈ icon_types) :
    png_files size =
      ["icon_" ++ toString size ++ "x" ++ toString size ++ ".png",
       "icon_" ++ toString size ++ "x" ++ toString size ++ "@2x.png"] ∧
    resolve_png fs size = some b ∧
    (tag, 8 + b.length, b) ∈ icon_data fs := by
  have hres : resolve_png fs size = some b := by
    simp only [resolve_png, png_files, first_existing, h1, h2]
  exact ⟨rfl, hres, mem_icon_data_of_resolve h3 hres hb⟩

/-- Witness for claim C10: only `icon_256x256@2x.png` exists. -/
theorem claim_C10_witness :
    png_files 256 = ["icon_256x256.png", "icon_256x256@2x.png"] ∧
    resolve_png (fun s =>
        if s = "icon_256x256@2x.png" then some [5, 6] else none) 256 =
      some [5, 6] ∧
    (ascii "ic08", 10, [5, 6]) ∈
      icon_data (fun s =>
        if s = "icon_256x256@2x.png" then some [5, 6] else none) :=
  claim_C10 _ 256 [5, 6] (ascii "ic08") (by decide) (by decide) (by decide)
    (by decide)

end DeepTalk
